import Mathlib

/-!
Verification development for the LLM dispatch layer of the repository
(`libs/core/llm`): provider adapters (`openai`, `claude`, `ollama`), the
provider registry, and the retry/fallback dispatch policy of `LLMService`.

The embedding is a shallow one.  Sequential `async/await` code is modelled
as pure state passing: each adapter is represented by its observable
behaviour, a pair of response streams (`isAvailable` and
`generateCompletion` indexed by how many times that method of that adapter
has already been called during the dispatch), and every adapter interaction
is recorded in an explicit event trace, so that claims about which calls
happen, in what order, and with what delays become statements about the
trace.  Thrown JavaScript values (including `undefined`, which
`executeWithRetry` throws when the loop body never runs) are modelled by
the inductive type `JsError`.
-/

/-- Thrown JavaScript values relevant to the dispatch layer.  `undef` is the
JavaScript `undefined` value (the initial value of `lastError` in
`executeWithRetry`); `vendorError` stands for an arbitrary error thrown by
an adapter call. -/
inductive JsError where
  | undef
  | noProviderConfigured
  | providerNotFound (name : String)
  | providerNotAvailable (name : String)
  | clientNotInitialized (vendor : String)
  | typeError
  | ollamaApiError (statusText : String)
  | vendorError (code : Nat)
  deriving DecidableEq, Repr

/-- Token usage accounting, from `LLMResponse.usage` in
`interfaces/llm-provider.interface`. -/
structure Usage where
  promptTokens : Nat
  completionTokens : Nat
  totalTokens : Nat
  deriving DecidableEq, Repr

/-- The `LLMResponse` shape of `interfaces/llm-provider.interface`. -/
structure LLMResponse where
  content : String
  usage : Option Usage := none
  provider : String
  deriving DecidableEq, Repr

/-- An adapter (`LLMProvider` interface), represented by its observable
behaviour: the result of its `k`-th `isAvailable` probe and of its `k`-th
`generateCompletion` call during one dispatch.  Either may throw. -/
structure LLMProvider where
  name : String
  isAvailable : Nat → Except JsError Bool
  generateCompletion : Nat → Except JsError LLMResponse

instance {ε α : Type} [DecidableEq ε] [DecidableEq α] : DecidableEq (Except ε α) := fun x y =>
  match x, y with
  | Except.ok a, Except.ok b =>
    if h : a = b then Decidable.isTrue (by subst h; rfl)
    else Decidable.isFalse (fun hc => h (by injection hc))
  | Except.error a, Except.error b =>
    if h : a = b then Decidable.isTrue (by subst h; rfl)
    else Decidable.isFalse (fun hc => h (by injection hc))
  | Except.ok _, Except.error _ => Decidable.isFalse (fun hc => by injection hc)
  | Except.error _, Except.ok _ => Decidable.isFalse (fun hc => by injection hc)

/-- One observable adapter interaction of the dispatch layer: an
`isAvailable` probe, a `generateCompletion` call, or a backoff delay
(`this.delay(ms)`). -/
inductive Event where
  | probe (name : String) (result : Except JsError Bool)
  | gen (name : String) (result : Except JsError LLMResponse)
  | delay (ms : Nat)
  deriving DecidableEq, Repr

/-- Number of `isAvailable` probes of the adapter called `name` recorded in
a trace. -/
def probeCount (name : String) (tr : List Event) : Nat :=
  (tr.filter (fun e => match e with
    | Event.probe n _ => n == name
    | _ => false)).length

/-- Number of `generateCompletion` calls of the adapter called `name`
recorded in a trace. -/
def genCount (name : String) (tr : List Event) : Nat :=
  (tr.filter (fun e => match e with
    | Event.gen n _ => n == name
    | _ => false)).length

/-- Total number of `generateCompletion` calls (all adapters) in a trace. -/
def genTotal (tr : List Event) : Nat :=
  (tr.filter (fun e => match e with
    | Event.gen _ _ => true
    | _ => false)).length

/-- Total number of `isAvailable` probes that returned `true` in a trace. -/
def probeTrueTotal (tr : List Event) : Nat :=
  (tr.filter (fun e => match e with
    | Event.probe _ (Except.ok true) => true
    | _ => false)).length

/-- The backoff delays recorded in a trace, in order. -/
def delays (tr : List Event) : List Nat :=
  tr.filterMap (fun e => match e with
    | Event.delay d => some d
    | _ => none)

/-- The provider registry: `Map<string, LLMProvider>` as an association
list in insertion order.  `mapSet` is JavaScript `Map.prototype.set`:
replace in place when the key exists (keeping its position), append
otherwise. -/
def mapSet (m : List LLMProvider) (p : LLMProvider) : List LLMProvider :=
  match m with
  | [] => [p]
  | q :: rest => if q.name = p.name then p :: rest else q :: mapSet rest p

/-- JavaScript `Map.prototype.get` on the registry. -/
def mapGet (m : List LLMProvider) (name : String) : Option LLMProvider :=
  match m with
  | [] => none
  | q :: rest => if q.name = name then some q else mapGet rest name

/-- The mutable fields of `LLMService`: the registry and the dispatch
configuration (`defaultProvider`, `fallbackProviders`, `retryAttempts`,
`retryDelay`, with the source's initial values 3 and 1000). -/
structure ServiceState where
  providers : List LLMProvider := []
  defaultProvider : Option String := none
  fallbackProviders : List String := []
  retryAttempts : Nat := 3
  retryDelay : Nat := 1000

/-- The `LLMServiceOptions` argument of `LLMService.configure`; `none`
models an `undefined` field. -/
structure LLMServiceOptions where
  defaultProvider : Option String := none
  fallbackProviders : Option (List String) := none
  retryAttempts : Option Nat := none
  retryDelay : Option Nat := none

/-- JavaScript truthiness of an optional string: `undefined` and the empty
string are falsy. -/
def truthyOptStr : Option String → Bool
  | none => false
  | some s => s != ""

namespace LLMService

/-- `LLMService.configure`: field-wise merge of the options into the
current configuration.  `defaultProvider` and `fallbackProviders` are
guarded by JavaScript truthiness (`if (options.defaultProvider)`,
`if (options.fallbackProviders)`; an array is always truthy);
`retryAttempts` and `retryDelay` by `!== undefined`. -/
def configure (s : ServiceState) (o : LLMServiceOptions) : ServiceState :=
  { s with
    defaultProvider :=
      if truthyOptStr o.defaultProvider then o.defaultProvider
      else s.defaultProvider
    fallbackProviders :=
      match o.fallbackProviders with
      | some l => l
      | none => s.fallbackProviders
    retryAttempts :=
      match o.retryAttempts with
      | some n => n
      | none => s.retryAttempts
    retryDelay :=
      match o.retryDelay with
      | some n => n
      | none => s.retryDelay }

/-- `LLMService.registerProvider`: `this.providers.set(provider.name, provider)`. -/
def registerProvider (s : ServiceState) (p : LLMProvider) : ServiceState :=
  { s with providers := mapSet s.providers p }

/-- `LLMService.getAvailableProviders`: `Array.from(this.providers.keys())`. -/
def getAvailableProviders (s : ServiceState) : List String :=
  s.providers.map (fun p => p.name)

/-- The backoff step of `executeWithRetry`: `if (attempt < this.retryAttempts)
await this.delay(this.retryDelay * attempt)`. -/
def delayEvents (ra rd attempt : Nat) : List Event :=
  if attempt < ra then [Event.delay (rd * attempt)] else []

/-- The loop body of `LLMService.executeWithRetry`
(`for (let attempt = 1; attempt <= this.retryAttempts; attempt++)`).
`fuel` is the number of remaining iterations (`retryAttempts` at entry),
`attempt` the 1-based loop counter, `lastError` the captured last error
(`undefined` initially), and `pc`/`gc` the number of `isAvailable` /
`generateCompletion` calls already made to this adapter.  Each iteration
probes `isAvailable`; a thrown probe error or a `false` probe is caught as
a failed attempt without calling `generateCompletion`; otherwise
`generateCompletion` is called and a success returns immediately.  After a
failed attempt with `attempt < retryAttempts` the loop waits
`retryDelay * attempt`.  When the loop exhausts, `lastError` is thrown. -/
def retryLoop (ra rd : Nat) (p : LLMProvider) :
    Nat → Nat → JsError → Nat → Nat → Except JsError LLMResponse × List Event
  | 0, _attempt, lastError, _pc, _gc => (Except.error lastError, [])
  | fuel + 1, attempt, _lastError, pc, gc =>
    match p.isAvailable pc with
    | Except.error pe =>
      ((retryLoop ra rd p fuel (attempt + 1) pe (pc + 1) gc).1,
        Event.probe p.name (Except.error pe) ::
          (delayEvents ra rd attempt ++
            (retryLoop ra rd p fuel (attempt + 1) pe (pc + 1) gc).2))
    | Except.ok false =>
      ((retryLoop ra rd p fuel (attempt + 1)
          (JsError.providerNotAvailable p.name) (pc + 1) gc).1,
        Event.probe p.name (Except.ok false) ::
          (delayEvents ra rd attempt ++
            (retryLoop ra rd p fuel (attempt + 1)
              (JsError.providerNotAvailable p.name) (pc + 1) gc).2))
    | Except.ok true =>
      match p.generateCompletion gc with
      | Except.ok r =>
        (Except.ok r,
          [Event.probe p.name (Except.ok true), Event.gen p.name (Except.ok r)])
      | Except.error e =>
        ((retryLoop ra rd p fuel (attempt + 1) e (pc + 1) (gc + 1)).1,
          Event.probe p.name (Except.ok true) ::
            Event.gen p.name (Except.error e) ::
              (delayEvents ra rd attempt ++
                (retryLoop ra rd p fuel (attempt + 1) e (pc + 1) (gc + 1)).2))

/-- `LLMService.executeWithRetry`, started on an existing trace `tr` (empty
for the primary provider; the trace accumulated so far when re-entered from
the fallback loop). -/
def executeWithRetry (s : ServiceState) (p : LLMProvider) (tr : List Event) :
    Except JsError LLMResponse × List Event :=
  ((retryLoop s.retryAttempts s.retryDelay p s.retryAttempts 1 JsError.undef
      (probeCount p.name tr) (genCount p.name tr)).1,
    tr ++ (retryLoop s.retryAttempts s.retryDelay p s.retryAttempts 1 JsError.undef
      (probeCount p.name tr) (genCount p.name tr)).2)

/-- The fallback phase of `LLMService.generateCompletion`
(`for (const fallbackName of this.fallbackProviders)`): entries equal to
the primary's resolved name or not registered are skipped; otherwise the
candidate is probed, an unavailable or throwing probe moves on to the next
candidate, and an available candidate is run through `executeWithRetry`,
whose error (caught by the `catch (fallbackError)` block) also moves on.
When the list is exhausted, the primary's captured error `err` is thrown. -/
def fallbackLoop (s : ServiceState) (primaryName : String) (err : JsError) :
    List String → List Event → Except JsError LLMResponse × List Event
  | [], tr => (Except.error err, tr)
  | fbName :: rest, tr =>
    if fbName = primaryName then fallbackLoop s primaryName err rest tr
    else
      match mapGet s.providers fbName with
      | none => fallbackLoop s primaryName err rest tr
      | some p =>
        match p.isAvailable (probeCount p.name tr) with
        | Except.error fe =>
          fallbackLoop s primaryName err rest
            (tr ++ [Event.probe p.name (Except.error fe)])
        | Except.ok false =>
          fallbackLoop s primaryName err rest
            (tr ++ [Event.probe p.name (Except.ok false)])
        | Except.ok true =>
          match executeWithRetry s p (tr ++ [Event.probe p.name (Except.ok true)]) with
          | (Except.ok r, tr2) => (Except.ok r, tr2)
          | (Except.error _, tr2) => fallbackLoop s primaryName err rest tr2

/-- Primary provider resolution, lines 126-135 of the service:
`options.provider || this.defaultProvider` (JavaScript `||`, so an empty
string falls through), then `if (!providerName) throw`, then the registry
lookup with `if (!primaryProvider) throw`. -/
def resolvePrimary (s : ServiceState) (optProvider : Option String) :
    Except JsError (String × LLMProvider) :=
  match (if truthyOptStr optProvider then optProvider else s.defaultProvider) with
  | none => Except.error JsError.noProviderConfigured
  | some n =>
    if n = "" then Except.error JsError.noProviderConfigured
    else
      match mapGet s.providers n with
      | none => Except.error (JsError.providerNotFound n)
      | some p => Except.ok (n, p)

/-- `LLMService.generateCompletion`: resolve the primary provider, run the
retry loop against it, and on failure walk the fallback list; if that too
fails, rethrow the primary's captured error.  Returns the result together
with the full trace of adapter interactions. -/
def generateCompletion (s : ServiceState) (optProvider : Option String) :
    Except JsError LLMResponse × List Event :=
  match resolvePrimary s optProvider with
  | Except.error e => (Except.error e, [])
  | Except.ok (n, p) =>
    match executeWithRetry s p [] with
    | (Except.ok r, tr) => (Except.ok r, tr)
    | (Except.error e, tr) => fallbackLoop s n e s.fallbackProviders tr

/-- JavaScript record assignment `availability[name] = b`: replace an
existing entry for the key, otherwise append. -/
def recordSet (m : List (String × Bool)) (name : String) (b : Bool) :
    List (String × Bool) :=
  match m with
  | [] => [(name, b)]
  | q :: rest =>
    if q.1 = name then (name, b) :: rest else q :: recordSet rest name b

/-- Lookup in the availability record. -/
def recordGet (m : List (String × Bool)) (name : String) : Option Bool :=
  match m with
  | [] => none
  | q :: rest => if q.1 = name then some q.2 else recordGet rest name

/-- The loop of `LLMService.checkProviderAvailability`
(`for (const [name, provider] of this.providers)`): each iteration awaits
`provider.isAvailable()` with no surrounding try/catch, so a thrown probe
error aborts the loop and propagates to the caller. -/
def availabilityLoop :
    List LLMProvider → List (String × Bool) → List Event →
      Except JsError (List (String × Bool)) × List Event
  | [], acc, tr => (Except.ok acc, tr)
  | p :: rest, acc, tr =>
    match p.isAvailable (probeCount p.name tr) with
    | Except.ok b =>
      availabilityLoop rest (recordSet acc p.name b)
        (tr ++ [Event.probe p.name (Except.ok b)])
    | Except.error e => (Except.error e, tr ++ [Event.probe p.name (Except.error e)])

/-- `LLMService.checkProviderAvailability`. -/
def checkProviderAvailability (s : ServiceState) :
    Except JsError (List (String × Bool)) × List Event :=
  availabilityLoop s.providers [] []

end LLMService

namespace OpenAIProvider

/-- The `message` field of an OpenAI chat choice; `content` may be `null`. -/
structure ChoiceMessage where
  content : Option String
  deriving DecidableEq, Repr

/-- One element of `completion.choices`. -/
structure Choice where
  message : Option ChoiceMessage
  deriving DecidableEq, Repr

/-- The `usage` block of an OpenAI chat completion. -/
structure ApiUsage where
  prompt_tokens : Nat
  completion_tokens : Nat
  total_tokens : Nat
  deriving DecidableEq, Repr

/-- The shape of a successful OpenAI `chat.completions.create` response as
read by the adapter. -/
structure Completion where
  choices : List Choice
  usage : Option ApiUsage
  deriving DecidableEq, Repr

/-- `OpenAIProvider.generateCompletion`.  `clientInitialized` is whether the
constructor received an API key (`this.client !== null`); `api` abstracts
the outcome of the outbound `chat.completions.create` call (the request
built from `messages`/`options` does not affect this claim's behaviour).
When `choices` is empty, `completion.choices[0]` is `undefined` and the
field access `response.message` throws a `TypeError`, which the `catch`
block rethrows.  Otherwise `content` is `response.message?.content || ''`
(JavaScript `||`: a missing message, `null` content, or empty string all
yield `''`). -/
def generateCompletion (clientInitialized : Bool)
    (api : Except JsError Completion) : Except JsError LLMResponse :=
  match clientInitialized with
  | false => Except.error (JsError.clientNotInitialized "openai")
  | true =>
    match api with
    | Except.error e => Except.error e
    | Except.ok completion =>
      match completion.choices.head? with
      | none => Except.error JsError.typeError
      | some response =>
        Except.ok
          { content :=
              match response.message with
              | some m => m.content.getD ""
              | none => ""
            usage := completion.usage.map (fun u =>
              { promptTokens := u.prompt_tokens
                completionTokens := u.completion_tokens
                totalTokens := u.total_tokens })
            provider := "openai" }

end OpenAIProvider

namespace ClaudeProvider

/-- One element of an Anthropic response's `content` array: a text block or
any other block type. -/
inductive ContentBlock where
  | text (text : String)
  | other
  deriving DecidableEq, Repr

/-- The `usage` block of an Anthropic response. -/
structure ApiUsage where
  input_tokens : Nat
  output_tokens : Nat
  deriving DecidableEq, Repr

/-- The shape of a successful Anthropic `messages.create` response as read
by the adapter. -/
structure Completion where
  content : List ContentBlock
  usage : Option ApiUsage
  deriving DecidableEq, Repr

/-- `ClaudeProvider.generateCompletion`.  `clientInitialized` is whether the
constructor received an API key; `api` abstracts the outbound
`messages.create` call.  When `content` is empty, `completion.content[0]`
is `undefined` and the access `content.type` throws a `TypeError`, which
the `catch` block rethrows.  Otherwise `content` is
`content.type === 'text' ? content.text : ''`. -/
def generateCompletion (clientInitialized : Bool)
    (api : Except JsError Completion) : Except JsError LLMResponse :=
  match clientInitialized with
  | false => Except.error (JsError.clientNotInitialized "claude")
  | true =>
    match api with
    | Except.error e => Except.error e
    | Except.ok completion =>
      match completion.content.head? with
      | none => Except.error JsError.typeError
      | some block =>
        Except.ok
          { content :=
              match block with
              | ContentBlock.text s => s
              | ContentBlock.other => ""
            usage := completion.usage.map (fun u =>
              { promptTokens := u.input_tokens
                completionTokens := u.output_tokens
                totalTokens := u.input_tokens + u.output_tokens })
            provider := "claude" }

end ClaudeProvider

namespace OllamaProvider

/-- The `message` field of an Ollama `/api/chat` response body. -/
structure ChatMessage where
  content : Option String
  deriving DecidableEq, Repr

/-- The parsed JSON body of an Ollama `/api/chat` response. -/
structure ChatData where
  message : Option ChatMessage
  eval_count : Option Nat
  prompt_eval_count : Option Nat
  deriving DecidableEq, Repr

/-- An HTTP response from the Ollama endpoint: `ok` status flag,
`statusText`, and the parsed body. -/
structure HttpResponse where
  ok : Bool
  statusText : String
  data : ChatData
  deriving DecidableEq, Repr

/-- `OllamaProvider.generateCompletion`.  `fetchResult` abstracts the
outcome of the outbound `fetch` (a network failure or JSON-parse failure is
an `Except.error`).  A non-`ok` response throws
`Ollama API error: statusText`; otherwise `content` is
`data.message?.content || ''` and `usage` is built only when `eval_count`
is truthy (present and nonzero), with `prompt_eval_count || 0` defaults. -/
def generateCompletion (fetchResult : Except JsError HttpResponse) :
    Except JsError LLMResponse :=
  match fetchResult with
  | Except.error e => Except.error e
  | Except.ok response =>
    match response.ok with
    | false => Except.error (JsError.ollamaApiError response.statusText)
    | true =>
      Except.ok
        { content :=
            match response.data.message with
            | some m => m.content.getD ""
            | none => ""
          usage :=
            match response.data.eval_count with
            | none => none
            | some 0 => none
            | some (n + 1) =>
              some
                { promptTokens := response.data.prompt_eval_count.getD 0
                  completionTokens := n + 1
                  totalTokens :=
                    response.data.prompt_eval_count.getD 0 + (n + 1) }
          provider := "ollama" }

end OllamaProvider

/-- The expected trace of `n` consecutive failed attempts of the retry loop
against `p`, starting at call index `i` (attempt number `i + 1`), each
attempt probing available, failing `generateCompletion` with `f j`, and
incurring the linear backoff `rd * attemptNumber`. -/
def failTrace (p : LLMProvider) (rd : Nat) (f : Nat → JsError) :
    Nat → Nat → List Event
  | _i, 0 => []
  | i, n + 1 =>
    Event.probe p.name (Except.ok true) ::
      Event.gen p.name (Except.error (f i)) ::
        Event.delay (rd * (i + 1)) :: failTrace p rd f (i + 1) n

/-- Adapter used in concrete dispatch scenarios: always available, every
completion call fails. -/
def pC1a : LLMProvider :=
  { name := "a"
    isAvailable := fun _ => Except.ok true
    generateCompletion := fun _ => Except.error (JsError.vendorError 1) }

/-- Fallback adapter for the same scenarios: always available, every
completion call fails with a distinct error. -/
def pC1b : LLMProvider :=
  { name := "b"
    isAvailable := fun _ => Except.ok true
    generateCompletion := fun _ => Except.error (JsError.vendorError 2) }

/-- Service state with primary `a`, fallback list `["b"]`, two retry
attempts. -/
def sC1 : ServiceState :=
  { providers := [pC1a, pC1b]
    defaultProvider := some "a"
    fallbackProviders := ["b"]
    retryAttempts := 2
    retryDelay := 5 }

/-- Service state like `sC1` but with a single retry attempt and no
backoff. -/
def sC2 : ServiceState :=
  { providers := [pC1a, pC1b]
    defaultProvider := some "a"
    fallbackProviders := ["b"]
    retryAttempts := 1
    retryDelay := 0 }

/-- The trace of the single failed primary attempt in the `sC2` scenario. -/
def trC2prim : List Event :=
  [Event.probe "a" (Except.ok true),
    Event.gen "a" (Except.error (JsError.vendorError 1))]

/-- The full trace of the `sC2` dispatch: primary fails once, fallback `b`
is probed, retried once and fails, and the primary error is rethrown. -/
def trC2out : List Event :=
  [Event.probe "a" (Except.ok true),
    Event.gen "a" (Except.error (JsError.vendorError 1)),
    Event.probe "b" (Except.ok true),
    Event.probe "b" (Except.ok true),
    Event.gen "b" (Except.error (JsError.vendorError 2))]

/-- A successful response carrying its producing adapter name. -/
def rC3 : LLMResponse := { content := "hi", provider := "p" }

/-- Adapter that fails its first completion call and succeeds on the
second. -/
def pC3 : LLMProvider :=
  { name := "p"
    isAvailable := fun _ => Except.ok true
    generateCompletion := fun j =>
      if j = 0 then Except.error (JsError.vendorError 0) else Except.ok rC3 }

/-- Service state for the fail-once-then-succeed retry scenario. -/
def sC3 : ServiceState :=
  { providers := [pC3]
    defaultProvider := some "p"
    retryAttempts := 3
    retryDelay := 7 }

/-- Service state with an empty registry and no default provider. -/
def sC4 : ServiceState := {}

/-- Service state with only provider `a` registered. -/
def sC5 : ServiceState :=
  { providers := [pC1a]
    defaultProvider := some "a" }

/-- Adapter whose availability probe throws. -/
def pC6t : LLMProvider :=
  { name := "t"
    isAvailable := fun _ => Except.error (JsError.vendorError 7)
    generateCompletion := fun _ => Except.error JsError.undef }

/-- Adapter whose availability probe succeeds. -/
def pC6o : LLMProvider :=
  { name := "o"
    isAvailable := fun _ => Except.ok true
    generateCompletion := fun _ => Except.error JsError.undef }

/-- Registry in which the first adapter's probe throws and a second adapter
remains to be probed. -/
def sC6 : ServiceState := { providers := [pC6t, pC6o] }

/-- Two adapters whose probes never throw. -/
def provListC6w : List LLMProvider :=
  [{ name := "u"
     isAvailable := fun _ => Except.ok true
     generateCompletion := fun _ => Except.error JsError.undef },
   { name := "v"
     isAvailable := fun _ => Except.ok false
     generateCompletion := fun _ => Except.error JsError.undef }]

/-- Registry whose probes all return. -/
def sC6w : ServiceState := { providers := provListC6w }

/-- An OpenAI success response whose single choice has a `null` message
content: the vendor returned no completion text. -/
def openaiNullContent : OpenAIProvider.Completion :=
  { choices := [{ message := some { content := none } }], usage := none }

/-- An Ollama HTTP failure response. -/
def ollamaFailResp : OllamaProvider.HttpResponse :=
  { ok := false
    statusText := "Service Unavailable"
    data := { message := none, eval_count := none, prompt_eval_count := none } }

/-- Service state with one registered provider named `v`. -/
def sC8 : ServiceState :=
  { providers := [{ name := "v"
                    isAvailable := fun _ => Except.ok true
                    generateCompletion := fun _ => Except.error JsError.undef }] }

/-- A fresh adapter named `w`, not registered in `sC8`. -/
def pC8 : LLMProvider :=
  { name := "w"
    isAvailable := fun _ => Except.ok true
    generateCompletion := fun _ => Except.error JsError.undef }

/-- Arbitrary service state used to instantiate the configure-merge
theorem. -/
def sC9 : ServiceState :=
  { defaultProvider := some "x"
    fallbackProviders := ["y"]
    retryAttempts := 4
    retryDelay := 9 }

/-- Service state configured with `retryAttempts = 0`. -/
def sC10 : ServiceState :=
  { providers := [pC1a]
    defaultProvider := some "a"
    retryAttempts := 0 }

open LLMService

@[simp]
lemma genTotal_append (a b : List Event) :
    genTotal (a ++ b) = genTotal a + genTotal b := by
  simp [genTotal, List.filter_append]

@[simp]
lemma genCount_append (name : String) (a b : List Event) :
    genCount name (a ++ b) = genCount name a + genCount name b := by
  simp [genCount, List.filter_append]

@[simp]
lemma probeCount_append (name : String) (a b : List Event) :
    probeCount name (a ++ b) = probeCount name a + probeCount name b := by
  simp [probeCount, List.filter_append]

@[simp]
lemma delays_append (a b : List Event) :
    delays (a ++ b) = delays a ++ delays b := by
  simp [delays, List.filterMap_append]

@[simp]
lemma genTotal_nil : genTotal [] = 0 := rfl

@[simp]
lemma genTotal_cons_probe (n : String) (r : Except JsError Bool) (tr : List Event) :
    genTotal (Event.probe n r :: tr) = genTotal tr := by
  simp [genTotal, List.filter_cons]

@[simp]
lemma genTotal_cons_delay (d : Nat) (tr : List Event) :
    genTotal (Event.delay d :: tr) = genTotal tr := by
  simp [genTotal, List.filter_cons]

@[simp]
lemma genTotal_cons_gen (n : String) (r : Except JsError LLMResponse)
    (tr : List Event) : genTotal (Event.gen n r :: tr) = genTotal tr + 1 := by
  simp [genTotal, List.filter_cons]

@[simp]
lemma genTotal_delayEvents (ra rd a : Nat) :
    genTotal (delayEvents ra rd a) = 0 := by
  unfold delayEvents
  split <;> simp

@[simp]
lemma genCount_cons_probe (name n : String) (r : Except JsError Bool)
    (tr : List Event) :
    genCount name (Event.probe n r :: tr) = genCount name tr := by
  simp [genCount, List.filter_cons]

@[simp]
lemma genCount_cons_delay (name : String) (d : Nat) (tr : List Event) :
    genCount name (Event.delay d :: tr) = genCount name tr := by
  simp [genCount, List.filter_cons]

@[simp]
lemma genCount_cons_gen (name n : String) (r : Except JsError LLMResponse)
    (tr : List Event) :
    genCount name (Event.gen n r :: tr) =
      (if n = name then 1 else 0) + genCount name tr := by
  by_cases h : n = name <;> simp [genCount, List.filter_cons, h, Nat.add_comm]

@[simp]
lemma genCount_delayEvents (name : String) (ra rd a : Nat) :
    genCount name (delayEvents ra rd a) = 0 := by
  unfold delayEvents
  split <;> simp [genCount]

@[simp]
lemma probeCount_cons_gen (name n : String) (r : Except JsError LLMResponse)
    (tr : List Event) :
    probeCount name (Event.gen n r :: tr) = probeCount name tr := by
  simp [probeCount, List.filter_cons]

@[simp]
lemma probeCount_cons_delay (name : String) (d : Nat) (tr : List Event) :
    probeCount name (Event.delay d :: tr) = probeCount name tr := by
  simp [probeCount, List.filter_cons]

@[simp]
lemma probeCount_cons_probe (name n : String) (r : Except JsError Bool)
    (tr : List Event) :
    probeCount name (Event.probe n r :: tr) =
      (if n = name then 1 else 0) + probeCount name tr := by
  by_cases h : n = name <;> simp [probeCount, List.filter_cons, h, Nat.add_comm]

@[simp]
lemma delays_nil : delays [] = [] := rfl

@[simp]
lemma delays_cons_probe (n : String) (r : Except JsError Bool) (tr : List Event) :
    delays (Event.probe n r :: tr) = delays tr := by
  simp [delays, List.filterMap_cons]

@[simp]
lemma delays_cons_gen (n : String) (r : Except JsError LLMResponse)
    (tr : List Event) : delays (Event.gen n r :: tr) = delays tr := by
  simp [delays, List.filterMap_cons]

@[simp]
lemma delays_cons_delay (d : Nat) (tr : List Event) :
    delays (Event.delay d :: tr) = d :: delays tr := by
  simp [delays, List.filterMap_cons]

@[simp]
lemma probeTrueTotal_nil : probeTrueTotal [] = 0 := rfl

@[simp]
lemma probeTrueTotal_cons_gen (n : String) (r : Except JsError LLMResponse)
    (tr : List Event) :
    probeTrueTotal (Event.gen n r :: tr) = probeTrueTotal tr := by
  simp [probeTrueTotal, List.filter_cons]

@[simp]
lemma probeTrueTotal_cons_delay (d : Nat) (tr : List Event) :
    probeTrueTotal (Event.delay d :: tr) = probeTrueTotal tr := by
  simp [probeTrueTotal, List.filter_cons]

@[simp]
lemma probeTrueTotal_cons_probe_true (n : String) (tr : List Event) :
    probeTrueTotal (Event.probe n (Except.ok true) :: tr) =
      probeTrueTotal tr + 1 := by
  simp [probeTrueTotal, List.filter_cons]

@[simp]
lemma probeTrueTotal_cons_probe_false (n : String) (tr : List Event) :
    probeTrueTotal (Event.probe n (Except.ok false) :: tr) =
      probeTrueTotal tr := by
  simp [probeTrueTotal, List.filter_cons]

@[simp]
lemma probeTrueTotal_cons_probe_error (n : String) (e : JsError)
    (tr : List Event) :
    probeTrueTotal (Event.probe n (Except.error e) :: tr) =
      probeTrueTotal tr := by
  simp [probeTrueTotal, List.filter_cons]

@[simp]
lemma probeTrueTotal_delayEvents (ra rd a : Nat) :
    probeTrueTotal (delayEvents ra rd a) = 0 := by
  unfold delayEvents
  split <;> simp [probeTrueTotal]

/-- The fallback loop never replaces the captured primary error: when it
fails, it fails with exactly the error it was given. -/
lemma fallbackLoop_error_eq (s : ServiceState) (pn : String) (err : JsError) :
    ∀ (fbs : List String) (tr : List Event) (e : JsError),
      (fallbackLoop s pn err fbs tr).1 = Except.error e → e = err := by
  intro fbs
  induction fbs with
  | nil =>
    intro tr e h
    simp only [fallbackLoop] at h
    exact (Except.error.inj h).symm
  | cons fb rest ih =>
    intro tr e h
    simp only [fallbackLoop] at h
    split at h
    · exact ih _ _ h
    · split at h
      · exact ih _ _ h
      · split at h
        · exact ih _ _ h
        · exact ih _ _ h
        · split at h
          · exact absurd h (by simp)
          · exact ih _ _ h

/-- The fallback loop only appends to the trace it is given. -/
lemma fallbackLoop_extends (s : ServiceState) (pn : String) (err : JsError) :
    ∀ (fbs : List String) (tr : List Event),
      ∃ tail, (fallbackLoop s pn err fbs tr).2 = tr ++ tail := by
  intro fbs
  induction fbs with
  | nil => intro tr; exact ⟨[], by simp [fallbackLoop]⟩
  | cons fb rest ih =>
    intro tr
    simp only [fallbackLoop]
    split
    · exact ih tr
    · split
      · exact ih tr
      · split
        · obtain ⟨tail, htail⟩ := ih (tr ++ [Event.probe _ (Except.error _)])
          exact ⟨_, by rw [htail, List.append_assoc]⟩
        · obtain ⟨tail, htail⟩ := ih (tr ++ [Event.probe _ (Except.ok false)])
          exact ⟨_, by rw [htail, List.append_assoc]⟩
        · split
          · next r tr2 heq =>
            have h2 := congrArg Prod.snd heq
            simp only [executeWithRetry] at h2
            rw [List.append_assoc] at h2
            exact ⟨_, h2.symm⟩
          · next e2 tr2 heq =>
            have h2 := congrArg Prod.snd heq
            simp only [executeWithRetry] at h2
            rw [List.append_assoc] at h2
            obtain ⟨tail, htail⟩ := ih tr2
            exact ⟨_, by rw [htail, ← h2, List.append_assoc]⟩

/-- With `retryAttempts = 0` the retry loop body never runs: no adapter
call is made and the initial `undefined` value of `lastError` is thrown. -/
lemma executeWithRetry_retryZero (s : ServiceState) (p : LLMProvider)
    (tr : List Event) (h0 : s.retryAttempts = 0) :
    executeWithRetry s p tr = (Except.error JsError.undef, tr) := by
  simp [executeWithRetry, h0, retryLoop]

/-- With `retryAttempts = 0` no fallback candidate can succeed either, so
the fallback loop ends by rethrowing the captured error. -/
lemma fallbackLoop_retryZero (s : ServiceState) (pn : String) (err : JsError)
    (h0 : s.retryAttempts = 0) :
    ∀ (fbs : List String) (tr : List Event),
      (fallbackLoop s pn err fbs tr).1 = Except.error err := by
  intro fbs
  induction fbs with
  | nil => intro tr; simp [fallbackLoop]
  | cons fb rest ih =>
    intro tr
    simp only [fallbackLoop]
    split
    · exact ih tr
    · split
      · exact ih tr
      · next p heqGet =>
        split
        · exact ih _
        · exact ih _
        · split
          · next r tr2 heq =>
            rw [executeWithRetry_retryZero s p _ h0] at heq
            exact absurd (congrArg Prod.fst heq) (by simp)
          · exact ih _

/-- Single-step unfolding of the retry loop when the availability probe
throws. -/
lemma retryLoop_step_probe_error (ra rd : Nat) (p : LLMProvider)
    (fuel attempt : Nat) (e0 : JsError) (pc gc : Nat) (pe : JsError)
    (h : p.isAvailable pc = Except.error pe) :
    retryLoop ra rd p (fuel + 1) attempt e0 pc gc =
      ((retryLoop ra rd p fuel (attempt + 1) pe (pc + 1) gc).1,
        Event.probe p.name (Except.error pe) ::
          (delayEvents ra rd attempt ++
            (retryLoop ra rd p fuel (attempt + 1) pe (pc + 1) gc).2)) := by
  simp only [retryLoop, h]

/-- Single-step unfolding of the retry loop when the availability probe
returns `false`. -/
lemma retryLoop_step_probe_false (ra rd : Nat) (p : LLMProvider)
    (fuel attempt : Nat) (e0 : JsError) (pc gc : Nat)
    (h : p.isAvailable pc = Except.ok false) :
    retryLoop ra rd p (fuel + 1) attempt e0 pc gc =
      ((retryLoop ra rd p fuel (attempt + 1)
          (JsError.providerNotAvailable p.name) (pc + 1) gc).1,
        Event.probe p.name (Except.ok false) ::
          (delayEvents ra rd attempt ++
            (retryLoop ra rd p fuel (attempt + 1)
              (JsError.providerNotAvailable p.name) (pc + 1) gc).2)) := by
  simp only [retryLoop, h]

/-- Single-step unfolding of the retry loop when the probe succeeds and the
completion call succeeds. -/
lemma retryLoop_step_gen_ok (ra rd : Nat) (p : LLMProvider)
    (fuel attempt : Nat) (e0 : JsError) (pc gc : Nat) (r : LLMResponse)
    (h : p.isAvailable pc = Except.ok true)
    (hg : p.generateCompletion gc = Except.ok r) :
    retryLoop ra rd p (fuel + 1) attempt e0 pc gc =
      (Except.ok r,
        [Event.probe p.name (Except.ok true), Event.gen p.name (Except.ok r)]) := by
  simp only [retryLoop, h, hg]

/-- Single-step unfolding of the retry loop when the probe succeeds and the
completion call fails. -/
lemma retryLoop_step_gen_error (ra rd : Nat) (p : LLMProvider)
    (fuel attempt : Nat) (e0 : JsError) (pc gc : Nat) (ge : JsError)
    (h : p.isAvailable pc = Except.ok true)
    (hg : p.generateCompletion gc = Except.error ge) :
    retryLoop ra rd p (fuel + 1) attempt e0 pc gc =
      ((retryLoop ra rd p fuel (attempt + 1) ge (pc + 1) (gc + 1)).1,
        Event.probe p.name (Except.ok true) ::
          Event.gen p.name (Except.error ge) ::
            (delayEvents ra rd attempt ++
              (retryLoop ra rd p fuel (attempt + 1) ge (pc + 1) (gc + 1)).2)) := by
  simp only [retryLoop, h, hg]

/-- When the retry loop exhausts with at least one attempt made, the error
it throws is exactly the failure of the final attempt, which is also the
last event of the produced trace: an unavailable probe, a throwing probe,
or a failed `generateCompletion` call. -/
lemma retryLoop_error_last (ra rd : Nat) (p : LLMProvider) :
    ∀ (fuel attempt : Nat) (e0 : JsError) (pc gc : Nat) (e : JsError)
      (evs : List Event),
      attempt + fuel = ra + 1 → 1 ≤ fuel →
      retryLoop ra rd p fuel attempt e0 pc gc = (Except.error e, evs) →
      ∃ pre,
        (evs = pre ++ [Event.probe p.name (Except.ok false)] ∧
          e = JsError.providerNotAvailable p.name) ∨
        evs = pre ++ [Event.probe p.name (Except.error e)] ∨
        evs = pre ++ [Event.gen p.name (Except.error e)] := by
  intro fuel
  induction fuel with
  | zero => intro attempt e0 pc gc e evs hinv hfuel; omega
  | succ n ih =>
    intro attempt e0 pc gc e evs hinv hfuel heq
    rcases hpe : p.isAvailable pc with pe | b
    · rw [retryLoop_step_probe_error ra rd p n attempt e0 pc gc pe hpe,
        Prod.mk.injEq] at heq
      obtain ⟨h1, h2⟩ := heq
      cases n with
      | zero =>
        have hd : delayEvents ra rd attempt = [] := by
          unfold delayEvents
          rw [if_neg (by omega)]
        simp only [retryLoop, hd, List.nil_append, List.append_nil] at h1 h2
        have he : pe = e := Except.error.inj h1
        subst he
        exact ⟨[], Or.inr (Or.inl (by simpa using h2.symm))⟩
      | succ m =>
        have hx : retryLoop ra rd p (m + 1) (attempt + 1) pe (pc + 1) gc =
            (Except.error e,
              (retryLoop ra rd p (m + 1) (attempt + 1) pe (pc + 1) gc).2) := by
          rw [← h1]
        obtain ⟨pre, hpre⟩ := ih (attempt + 1) pe (pc + 1) gc e _ (by omega)
          (by omega) hx
        refine ⟨Event.probe p.name (Except.error pe) ::
          (delayEvents ra rd attempt ++ pre), ?_⟩
        rcases hpre with ⟨hl, he⟩ | hl | hl
        · exact Or.inl ⟨by rw [← h2, hl]; simp, he⟩
        · exact Or.inr (Or.inl (by rw [← h2, hl]; simp))
        · exact Or.inr (Or.inr (by rw [← h2, hl]; simp))
    · cases b with
      | false =>
        rw [retryLoop_step_probe_false ra rd p n attempt e0 pc gc hpe,
          Prod.mk.injEq] at heq
        obtain ⟨h1, h2⟩ := heq
        cases n with
        | zero =>
          have hd : delayEvents ra rd attempt = [] := by
            unfold delayEvents
            rw [if_neg (by omega)]
          simp only [retryLoop, hd, List.nil_append, List.append_nil] at h1 h2
          exact ⟨[], Or.inl ⟨by simpa using h2.symm, (Except.error.inj h1).symm⟩⟩
        | succ m =>
          have hx : retryLoop ra rd p (m + 1) (attempt + 1)
              (JsError.providerNotAvailable p.name) (pc + 1) gc =
              (Except.error e,
                (retryLoop ra rd p (m + 1) (attempt + 1)
                  (JsError.providerNotAvailable p.name) (pc + 1) gc).2) := by
            rw [← h1]
          obtain ⟨pre, hpre⟩ := ih (attempt + 1)
            (JsError.providerNotAvailable p.name) (pc + 1) gc e _ (by omega)
            (by omega) hx
          refine ⟨Event.probe p.name (Except.ok false) ::
            (delayEvents ra rd attempt ++ pre), ?_⟩
          rcases hpre with ⟨hl, he⟩ | hl | hl
          · exact Or.inl ⟨by rw [← h2, hl]; simp, he⟩
          · exact Or.inr (Or.inl (by rw [← h2, hl]; simp))
          · exact Or.inr (Or.inr (by rw [← h2, hl]; simp))
      | true =>
        rcases hge : p.generateCompletion gc with ge | r
        · rw [retryLoop_step_gen_error ra rd p n attempt e0 pc gc ge hpe hge,
            Prod.mk.injEq] at heq
          obtain ⟨h1, h2⟩ := heq
          cases n with
          | zero =>
            have hd : delayEvents ra rd attempt = [] := by
              unfold delayEvents
              rw [if_neg (by omega)]
            simp only [retryLoop, hd, List.nil_append, List.append_nil] at h1 h2
            have he : ge = e := Except.error.inj h1
            subst he
            exact ⟨[Event.probe p.name (Except.ok true)],
              Or.inr (Or.inr (by simpa using h2.symm))⟩
          | succ m =>
            have hx : retryLoop ra rd p (m + 1) (attempt + 1) ge (pc + 1) (gc + 1) =
                (Except.error e,
                  (retryLoop ra rd p (m + 1) (attempt + 1) ge (pc + 1) (gc + 1)).2) := by
              rw [← h1]
            obtain ⟨pre, hpre⟩ := ih (attempt + 1) ge (pc + 1) (gc + 1) e _ (by omega)
              (by omega) hx
            refine ⟨Event.probe p.name (Except.ok true) ::
              Event.gen p.name (Except.error ge) ::
                (delayEvents ra rd attempt ++ pre), ?_⟩
            rcases hpre with ⟨hl, he⟩ | hl | hl
            · exact Or.inl ⟨by rw [← h2, hl]; simp, he⟩
            · exact Or.inr (Or.inl (by rw [← h2, hl]; simp))
            · exact Or.inr (Or.inr (by rw [← h2, hl]; simp))
        · rw [retryLoop_step_gen_ok ra rd p n attempt e0 pc gc r hpe hge,
            Prod.mk.injEq] at heq
          exact absurd heq.1 (by simp)


/-- The retry loop makes at most `fuel` `generateCompletion` calls. -/
lemma retryLoop_genTotal_le (ra rd : Nat) (p : LLMProvider) :
    ∀ (fuel attempt : Nat) (e0 : JsError) (pc gc : Nat),
      genTotal (retryLoop ra rd p fuel attempt e0 pc gc).2 ≤ fuel := by
  intro fuel
  induction fuel with
  | zero => intro attempt e0 pc gc; simp [retryLoop]
  | succ n ih =>
    intro attempt e0 pc gc
    simp only [retryLoop]
    split
    · next pe _ =>
      have := ih (attempt + 1) pe (pc + 1) gc
      simp only [genTotal_cons_probe, genTotal_append, genTotal_delayEvents]
      omega
    · next _ =>
      have := ih (attempt + 1) (JsError.providerNotAvailable p.name) (pc + 1) gc
      simp only [genTotal_cons_probe, genTotal_append, genTotal_delayEvents]
      omega
    · next _ =>
      split
      · simp
      · next e _ =>
        have := ih (attempt + 1) e (pc + 1) (gc + 1)
        simp only [genTotal_cons_probe, genTotal_cons_gen, genTotal_append,
          genTotal_delayEvents]
        omega

/-- `executeWithRetry` adds at most `retryAttempts` `generateCompletion`
calls to the trace. -/
lemma executeWithRetry_genTotal_le (s : ServiceState) (p : LLMProvider)
    (tr : List Event) :
    genTotal (executeWithRetry s p tr).2 ≤ genTotal tr + s.retryAttempts := by
  simp only [executeWithRetry, genTotal_append]
  have := retryLoop_genTotal_le s.retryAttempts s.retryDelay p s.retryAttempts 1
    JsError.undef (probeCount p.name tr) (genCount p.name tr)
  omega

/-- The fallback loop adds at most `retryAttempts` `generateCompletion`
calls per configured fallback entry. -/
lemma fallbackLoop_genTotal_le (s : ServiceState) (pn : String) (err : JsError) :
    ∀ (fbs : List String) (tr : List Event),
      genTotal (fallbackLoop s pn err fbs tr).2 ≤
        genTotal tr + s.retryAttempts * fbs.length := by
  intro fbs
  induction fbs with
  | nil => intro tr; simp [fallbackLoop]
  | cons fb rest ih =>
    intro tr
    simp only [fallbackLoop]
    have hlen : s.retryAttempts * (fb :: rest).length =
        s.retryAttempts * rest.length + s.retryAttempts := by
      simp [List.length_cons, Nat.mul_succ]
    split
    · have := ih tr; omega
    · split
      · have := ih tr; omega
      · next p heqGet =>
        split
        · next fe _ =>
          have h := ih (tr ++ [Event.probe p.name (Except.error fe)])
          simp only [genTotal_append, genTotal_cons_probe, genTotal_nil] at h
          omega
        · have h := ih (tr ++ [Event.probe p.name (Except.ok false)])
          simp only [genTotal_append, genTotal_cons_probe, genTotal_nil] at h
          omega
        · split
          · next r tr2 heq =>
            have h2 := congrArg Prod.snd heq
            simp only [executeWithRetry] at h2
            have hb := retryLoop_genTotal_le s.retryAttempts s.retryDelay p
              s.retryAttempts 1 JsError.undef
              (probeCount p.name (tr ++ [Event.probe p.name (Except.ok true)]))
              (genCount p.name (tr ++ [Event.probe p.name (Except.ok true)]))
            rw [← h2]
            simp only [genTotal_append, genTotal_cons_probe, genTotal_nil]
            omega
          · next e2 tr2 heq =>
            have h2 := congrArg Prod.snd heq
            simp only [executeWithRetry] at h2
            have hb := retryLoop_genTotal_le s.retryAttempts s.retryDelay p
              s.retryAttempts 1 JsError.undef
              (probeCount p.name (tr ++ [Event.probe p.name (Except.ok true)]))
              (genCount p.name (tr ++ [Event.probe p.name (Except.ok true)]))
            have h := ih tr2
            have h3 : genTotal tr2 ≤ genTotal tr + s.retryAttempts := by
              rw [← h2]
              simp only [genTotal_append, genTotal_cons_probe, genTotal_nil]
              omega
            omega

lemma delays_failTrace (p : LLMProvider) (rd : Nat) (f : Nat → JsError) :
    ∀ (n i : Nat), delays (failTrace p rd f i n) =
      (List.range n).map (fun j => rd * (i + j + 1)) := by
  intro n
  induction n with
  | zero => intro i; simp [failTrace]
  | succ m ih =>
    intro i
    rw [List.range_succ_eq_map]
    simp only [failTrace, delays_cons_probe, delays_cons_gen, delays_cons_delay,
      List.map_cons, List.map_map, ih (i + 1)]
    have hfun : (fun j => rd * (i + 1 + j + 1)) =
        ((fun j => rd * (i + j + 1)) ∘ Nat.succ) := by
      funext j
      show rd * (i + 1 + j + 1) = rd * (i + (j + 1) + 1)
      exact congrArg (fun t => rd * t) (by omega)
    rw [hfun]

lemma genCount_failTrace (p : LLMProvider) (rd : Nat) (f : Nat → JsError) :
    ∀ (n i : Nat), genCount p.name (failTrace p rd f i n) = n := by
  intro n
  induction n with
  | zero => intro i; simp [failTrace, genCount]
  | succ m ih =>
    intro i
    simp [failTrace, ih (i + 1), Nat.add_comm]

/-- The retry loop under the spec's testable scenario: the adapter is
available throughout, fails its first `k` `generateCompletion` calls and
succeeds on call `k` (attempt `k + 1 ≤ retryAttempts`).  The loop returns
that success and the trace is exactly `k` failed attempts, each followed by
its linear backoff, then the successful attempt. -/
lemma retryLoop_scenario (ra rd : Nat) (p : LLMProvider) (f : Nat → JsError)
    (r : LLMResponse) :
    ∀ (k i : Nat) (e0 : JsError),
      i + k < ra →
      (∀ j, i ≤ j → j ≤ i + k → p.isAvailable j = Except.ok true) →
      (∀ j, i ≤ j → j < i + k → p.generateCompletion j = Except.error (f j)) →
      p.generateCompletion (i + k) = Except.ok r →
      retryLoop ra rd p (ra - i) (i + 1) e0 i i =
        (Except.ok r,
          failTrace p rd f i k ++
            [Event.probe p.name (Except.ok true),
              Event.gen p.name (Except.ok r)]) := by
  intro k
  induction k with
  | zero =>
    intro i e0 hlt hprobe hfail hsucc
    have hfuel : ra - i = (ra - i - 1) + 1 := by omega
    rw [hfuel, retryLoop_step_gen_ok ra rd p (ra - i - 1) (i + 1) e0 i i r
      (hprobe i le_rfl (by omega)) hsucc]
    simp [failTrace]
  | succ m ih =>
    intro i e0 hlt hprobe hfail hsucc
    have hfuel : ra - i = (ra - i - 1) + 1 := by omega
    rw [hfuel, retryLoop_step_gen_error ra rd p (ra - i - 1) (i + 1) e0 i i (f i)
      (hprobe i le_rfl (by omega)) (hfail i le_rfl (by omega))]
    have harg : ra - i - 1 = ra - (i + 1) := by omega
    have hs : p.generateCompletion (i + 1 + m) = Except.ok r := by
      rw [show i + 1 + m = i + (m + 1) from by omega]
      exact hsucc
    have hrec := ih (i + 1) (f i) (by omega)
      (fun j h1 h2 => hprobe j (by omega) (by omega))
      (fun j h1 h2 => hfail j (by omega) (by omega)) hs
    rw [harg, hrec]
    have hd : delayEvents ra rd (i + 1) = [Event.delay (rd * (i + 1))] := by
      unfold delayEvents
      rw [if_pos (by omega)]
    rw [hd]
    simp [failTrace]

@[simp]
lemma probeTrueTotal_append (a b : List Event) :
    probeTrueTotal (a ++ b) = probeTrueTotal a + probeTrueTotal b := by
  simp [probeTrueTotal, List.filter_append]

/-- Every `generateCompletion` call of the retry loop is preceded by a
successful availability probe within the same attempt: a `false` probe
counts as a failed attempt without a completion call. -/
lemma retryLoop_gen_le_probeTrue (ra rd : Nat) (p : LLMProvider) :
    ∀ (fuel attempt : Nat) (e0 : JsError) (pc gc : Nat),
      genTotal (retryLoop ra rd p fuel attempt e0 pc gc).2 ≤
        probeTrueTotal (retryLoop ra rd p fuel attempt e0 pc gc).2 := by
  intro fuel
  induction fuel with
  | zero => intro attempt e0 pc gc; simp [retryLoop]
  | succ n ih =>
    intro attempt e0 pc gc
    simp only [retryLoop]
    split
    · next pe _ =>
      have := ih (attempt + 1) pe (pc + 1) gc
      simp only [genTotal_cons_probe, genTotal_append, genTotal_delayEvents,
        probeTrueTotal_cons_probe_error, probeTrueTotal_append,
        probeTrueTotal_delayEvents]
      omega
    · have := ih (attempt + 1) (JsError.providerNotAvailable p.name) (pc + 1) gc
      simp only [genTotal_cons_probe, genTotal_append, genTotal_delayEvents,
        probeTrueTotal_cons_probe_false, probeTrueTotal_append,
        probeTrueTotal_delayEvents]
      omega
    · split
      · simp
      · next e _ =>
        have := ih (attempt + 1) e (pc + 1) (gc + 1)
        simp only [genTotal_cons_probe, genTotal_cons_gen, genTotal_append,
          genTotal_delayEvents, probeTrueTotal_cons_probe_true,
          probeTrueTotal_cons_gen, probeTrueTotal_append,
          probeTrueTotal_delayEvents]
        omega

/-- Last registration wins: after `set`, looking up the adapter's name
returns the newly registered adapter. -/
lemma mapGet_mapSet_self (m : List LLMProvider) (p : LLMProvider) :
    mapGet (mapSet m p) p.name = some p := by
  induction m with
  | nil => simp [mapSet, mapGet]
  | cons q rest ih =>
    by_cases h : q.name = p.name
    · simp [mapSet, mapGet, h]
    · simp [mapSet, mapGet, h, ih]

/-- Registering the same adapter twice is the same as registering it
once. -/
lemma mapSet_idem (m : List LLMProvider) (p : LLMProvider) :
    mapSet (mapSet m p) p = mapSet m p := by
  induction m with
  | nil => simp [mapSet]
  | cons q rest ih =>
    by_cases h : q.name = p.name
    · simp [mapSet, h]
    · simp [mapSet, h, ih]

/-- Registering a name already present replaces in place and leaves the key
sequence unchanged. -/
lemma mapSet_names_mem (m : List LLMProvider) (p : LLMProvider)
    (h : p.name ∈ m.map (fun q => q.name)) :
    (mapSet m p).map (fun q => q.name) = m.map (fun q => q.name) := by
  induction m with
  | nil => simp at h
  | cons q rest ih =>
    by_cases hq : q.name = p.name
    · simp [mapSet, hq]
    · have hr : p.name ∈ rest.map (fun q => q.name) := by
        rw [List.map_cons] at h
        rcases List.mem_cons.mp h with h1 | h1
        · exact absurd h1.symm hq
        · exact h1
      simp [mapSet, hq, ih hr]

/-- Registering a fresh name appends it at the end of the key sequence. -/
lemma mapSet_names_not_mem (m : List LLMProvider) (p : LLMProvider)
    (h : p.name ∉ m.map (fun q => q.name)) :
    (mapSet m p).map (fun q => q.name) =
      m.map (fun q => q.name) ++ [p.name] := by
  induction m with
  | nil => simp [mapSet]
  | cons q rest ih =>
    have hq : q.name ≠ p.name := by
      intro hc
      exact h (by simp [hc])
    have hr : p.name ∉ rest.map (fun q => q.name) := by
      intro hc
      exact h (by simp [hc])
    simp [mapSet, hq, ih hr]

lemma recordGet_recordSet_self (m : List (String × Bool)) (n : String)
    (b : Bool) : recordGet (recordSet m n b) n = some b := by
  induction m with
  | nil => simp [recordSet, recordGet]
  | cons q rest ih =>
    by_cases h : q.1 = n
    · simp [recordSet, recordGet, h]
    · simp [recordSet, recordGet, h, ih]

lemma recordGet_recordSet_other (m : List (String × Bool)) (n : String)
    (b : Bool) (n2 : String) (h : n2 ≠ n) :
    recordGet (recordSet m n b) n2 = recordGet m n2 := by
  have hn : ¬n = n2 := fun hc => h hc.symm
  induction m with
  | nil => simp [recordSet, recordGet, hn]
  | cons q rest ih =>
    by_cases hq : q.1 = n
    · by_cases hq2 : q.1 = n2
      · exact absurd (hq2.symm.trans hq) h
      · simp [recordSet, recordGet, hq, hq2, hn]
    · by_cases hq2 : q.1 = n2
      · simp [recordSet, recordGet, hq, hq2, h]
      · simp [recordSet, recordGet, hq, hq2, ih]

/-- When no registered adapter's probe throws, the availability loop
completes with a mapping that keeps every key accumulated so far and has an
entry for every remaining adapter. -/
lemma availabilityLoop_ok (entries : List LLMProvider) :
    ∀ (acc : List (String × Bool)) (tr : List Event),
      (∀ p, p ∈ entries → ∀ i, ∃ b, p.isAvailable i = Except.ok b) →
      ∃ m tr2, availabilityLoop entries acc tr = (Except.ok m, tr2) ∧
        (∀ name2, (recordGet acc name2).isSome → (recordGet m name2).isSome) ∧
        (∀ p, p ∈ entries → (recordGet m p.name).isSome) := by
  induction entries with
  | nil =>
    intro acc tr _
    exact ⟨acc, tr, rfl, fun name2 hs => hs, by simp⟩
  | cons p rest ih =>
    intro acc tr h
    obtain ⟨b, hb⟩ := h p (List.mem_cons_self p rest) (probeCount p.name tr)
    obtain ⟨m, tr2, heq, hpres, hall⟩ := ih (recordSet acc p.name b)
      (tr ++ [Event.probe p.name (Except.ok b)])
      (fun q hq i => h q (List.mem_cons_of_mem p hq) i)
    refine ⟨m, tr2, ?_, ?_, ?_⟩
    · simp only [availabilityLoop, hb]
      exact heq
    · intro name2 hs
      apply hpres
      by_cases hn : name2 = p.name
      · subst hn
        rw [recordGet_recordSet_self]
        simp
      · rw [recordGet_recordSet_other acc p.name b name2 hn]
        exact hs
    · intro q hq
      rcases List.mem_cons.mp hq with hq1 | hq1
      · subst hq1
        apply hpres
        rw [recordGet_recordSet_self]
        simp
      · exact hall q hq1

/-- Unfolding of `generateCompletion` once the primary provider has been
resolved. -/
lemma generateCompletion_resolved (s : ServiceState) (opt : Option String)
    (n : String) (p : LLMProvider)
    (hres : resolvePrimary s opt = Except.ok (n, p)) :
    generateCompletion s opt =
      match executeWithRetry s p [] with
      | (Except.ok r, tr) => (Except.ok r, tr)
      | (Except.error e, tr) => fallbackLoop s n e s.fallbackProviders tr := by
  unfold generateCompletion
  rw [hres]

/-- C1, counterexample.  In the concrete dispatch `sC1` (primary `a`,
`retryAttempts = 2`, fallback `b`), the primary's retries exhaust, fallback
`b` passes its availability probe, and the service then makes TWO
`generateCompletion` calls to `b` — the fallback candidate is run through
the same retry loop as the primary, not attempted exactly once as the claim
states. -/
theorem C1_fallback_single_shot_counterexample :
    (LLMService.generateCompletion sC1 none).1 =
      Except.error (JsError.vendorError 1) ∧
    genCount "b" (LLMService.generateCompletion sC1 none).2 = 2 := by
  constructor <;> rfl

/-- C1, amended.  Each fallback candidate that passes its availability
probe is attempted via `executeWithRetry`, i.e. with up to `retryAttempts`
`generateCompletion` calls rather than exactly one; the worst case over a
whole dispatch is `retryAttempts` completion calls on the primary plus up
to `retryAttempts` per configured fallback entry. -/
theorem C1_amended_total_attempt_bound (s : ServiceState)
    (opt : Option String) :
    genTotal (LLMService.generateCompletion s opt).2 ≤
      s.retryAttempts * (1 + s.fallbackProviders.length) := by
  have hmul : s.retryAttempts * (1 + s.fallbackProviders.length) =
      s.retryAttempts + s.retryAttempts * s.fallbackProviders.length := by
    rw [Nat.mul_add, Nat.mul_one]
  unfold LLMService.generateCompletion
  split
  · simp
  · next n p heq =>
    have h1 := executeWithRetry_genTotal_le s p []
    split
    · next r tr heq2 =>
      rw [heq2] at h1
      simp only [genTotal_nil] at h1
      dsimp only
      omega
    · next e tr heq2 =>
      rw [heq2] at h1
      simp only [genTotal_nil] at h1
      have h3 := fallbackLoop_genTotal_le s n e s.fallbackProviders tr
      omega

/-- C2.  Whenever the primary provider resolves, its retry loop fails with
error `e`, and the whole dispatch fails, the error surfaced to the caller
is exactly `e` — the error captured from the primary's final retry attempt
— and never any fallback provider's error.  (The source rethrows this error
value directly; the spec's `AllProvidersExhaustedError` naming refers to
this surfaced terminal error and its cause.) -/
theorem C2_primary_error_surfaced (s : ServiceState) (opt : Option String)
    (n : String) (p : LLMProvider) (e : JsError) (tr : List Event)
    (e2 : JsError) (tr2 : List Event)
    (hres : LLMService.resolvePrimary s opt = Except.ok (n, p))
    (hprim : LLMService.executeWithRetry s p [] = (Except.error e, tr))
    (hout : LLMService.generateCompletion s opt = (Except.error e2, tr2)) :
    e2 = e := by
  rw [generateCompletion_resolved s opt n p hres, hprim] at hout
  exact fallbackLoop_error_eq s n e s.fallbackProviders tr e2
    (congrArg Prod.fst hout)

/-- C2, witness: in the concrete dispatch `sC2` the primary `a` fails with
`vendorError 1`, fallback `b` fails with `vendorError 2`, and the surfaced
error is the primary's. -/
theorem C2_witness : JsError.vendorError 1 = JsError.vendorError 1 :=
  C2_primary_error_surfaced sC2 none "a" pC1a (JsError.vendorError 1) trC2prim
    (JsError.vendorError 1) trC2out rfl rfl rfl

/-- C3.  Against the primary provider the retry loop makes at most
`retryAttempts` tries.  Under the scenario hypotheses — the adapter is
available on every probe, fails its first `k < retryAttempts` completion
calls, and succeeds on call `k` — the loop returns that first success
immediately; the trace is exactly `k` failed attempts each followed by its
backoff, then the successful attempt, so exactly `k` delays are incurred
and they are `retryDelay * 1, …, retryDelay * k` (linear backoff), with
`k + 1` completion calls in total and `result.provider` equal to the
primary's name (every adapter stamps its own name on success, as the
`hname` hypothesis records).  The final conjunct covers the
probe-`false` rule in general: the loop never makes more completion calls
than successful probes, so an attempt whose probe fails makes no
`generateCompletion` call. -/
theorem C3_retry_backoff_scenario (s : ServiceState) (p : LLMProvider)
    (f : Nat → JsError) (r : LLMResponse) (k : Nat)
    (hk : k < s.retryAttempts)
    (hprobe : ∀ j, j ≤ k → p.isAvailable j = Except.ok true)
    (hfail : ∀ j, j < k → p.generateCompletion j = Except.error (f j))
    (hsucc : p.generateCompletion k = Except.ok r)
    (hname : r.provider = p.name) :
    LLMService.executeWithRetry s p [] =
      (Except.ok r,
        failTrace p s.retryDelay f 0 k ++
          [Event.probe p.name (Except.ok true),
            Event.gen p.name (Except.ok r)]) ∧
    delays (LLMService.executeWithRetry s p []).2 =
      (List.range k).map (fun i => s.retryDelay * (i + 1)) ∧
    genCount p.name (LLMService.executeWithRetry s p []).2 = k + 1 ∧
    (LLMService.executeWithRetry s p []).1 = Except.ok r ∧
    r.provider = p.name ∧
    (∀ (fuel attempt : Nat) (e0 : JsError) (pc gc : Nat),
      genTotal (LLMService.retryLoop s.retryAttempts s.retryDelay p fuel
        attempt e0 pc gc).2 ≤
      probeTrueTotal (LLMService.retryLoop s.retryAttempts s.retryDelay p fuel
        attempt e0 pc gc).2) := by
  have hmain := retryLoop_scenario s.retryAttempts s.retryDelay p f r k 0
    JsError.undef (by omega) (fun j _ h2 => hprobe j (by omega))
    (fun j _ h2 => hfail j (by omega)) (by simpa using hsucc)
  have hmain2 : retryLoop s.retryAttempts s.retryDelay p s.retryAttempts 1
      JsError.undef 0 0 =
      (Except.ok r,
        failTrace p s.retryDelay f 0 k ++
          [Event.probe p.name (Except.ok true),
            Event.gen p.name (Except.ok r)]) := hmain
  have he : LLMService.executeWithRetry s p [] =
      (Except.ok r,
        failTrace p s.retryDelay f 0 k ++
          [Event.probe p.name (Except.ok true),
            Event.gen p.name (Except.ok r)]) := by
    unfold LLMService.executeWithRetry
    rw [show probeCount p.name ([] : List Event) = 0 from rfl,
      show genCount p.name ([] : List Event) = 0 from rfl, hmain2]
    simp
  refine ⟨he, ?_, ?_, by rw [he], hname,
    fun fuel attempt e0 pc gc =>
      retryLoop_gen_le_probeTrue s.retryAttempts s.retryDelay p fuel attempt
        e0 pc gc⟩
  · rw [he]
    dsimp only
    rw [delays_append, delays_failTrace p s.retryDelay f k 0]
    have ht : delays [Event.probe p.name (Except.ok true),
        Event.gen p.name (Except.ok r)] = [] := rfl
    rw [ht, List.append_nil]
    have hfun : (fun j => s.retryDelay * (0 + j + 1)) =
        (fun j => s.retryDelay * (j + 1)) := by
      funext j
      exact congrArg (fun t => s.retryDelay * t) (by omega)
    rw [hfun]
  · rw [he]
    dsimp only
    rw [genCount_append, genCount_failTrace p s.retryDelay f k 0]
    have ht : genCount p.name [Event.probe p.name (Except.ok true),
        Event.gen p.name (Except.ok r)] = 1 := by
      simp [genCount]
    rw [ht]

/-- C3, witness: the adapter `pC3` fails once then succeeds; with
`retryAttempts = 3` and `retryDelay = 7` the dispatch succeeds with the
adapter's response after one backoff delay of 7. -/
theorem C3_witness :
    (LLMService.executeWithRetry sC3 pC3 []).1 = Except.ok rC3 ∧
    delays (LLMService.executeWithRetry sC3 pC3 []).2 = [7] := by
  have h := C3_retry_backoff_scenario sC3 pC3 (fun _ => JsError.vendorError 0)
    rC3 1 (by decide) (fun j _ => rfl)
    (fun j hj => by
      have hj0 : j = 0 := by omega
      subst hj0
      rfl)
    rfl rfl
  exact ⟨h.2.2.2.1, by rw [h.2.1]; rfl⟩

/-- Unfolding of `generateCompletion` when primary resolution fails: the
error is rethrown immediately with no adapter interaction. -/
lemma generateCompletion_config_error (s : ServiceState) (opt : Option String)
    (e : JsError) (hres : resolvePrimary s opt = Except.error e) :
    generateCompletion s opt = (Except.error e, []) := by
  unfold generateCompletion
  rw [hres]

/-- C4.  Whenever the resolved primary name — `options.provider` if truthy,
else the configured default — is absent, empty, or not registered (the
hypothesis `h` covers all three cases at once, since it forces every
resolvable name to miss the registry), the completion call fails
immediately with a configuration error (`noProviderConfigured` or
`providerNotFound`) and the trace is empty: zero adapter calls, no retry,
no fallback. -/
theorem C4_configuration_error_no_calls (s : ServiceState)
    (opt : Option String)
    (h : ∀ n2, (if truthyOptStr opt then opt else s.defaultProvider) = some n2 →
      n2 ≠ "" → mapGet s.providers n2 = none) :
    ∃ e, LLMService.generateCompletion s opt = (Except.error e, []) ∧
      (e = JsError.noProviderConfigured ∨
        ∃ n2, e = JsError.providerNotFound n2) := by
  rcases hx : (if truthyOptStr opt then opt else s.defaultProvider) with _ | n2
  · refine ⟨JsError.noProviderConfigured,
      generateCompletion_config_error s opt _ ?_, Or.inl rfl⟩
    simp only [LLMService.resolvePrimary, hx]
  · by_cases hn : n2 = ""
    · subst hn
      refine ⟨JsError.noProviderConfigured,
        generateCompletion_config_error s opt _ ?_, Or.inl rfl⟩
      simp only [LLMService.resolvePrimary, hx]
      simp
    · have hget := h n2 hx hn
      refine ⟨JsError.providerNotFound n2,
        generateCompletion_config_error s opt _ ?_, Or.inr ⟨n2, rfl⟩⟩
      simp only [LLMService.resolvePrimary, hx]
      rw [if_neg hn]
      simp only [hget]

/-- C4, witness: requesting unregistered provider `Z` against an empty
registry with no default yields an immediate configuration error with an
empty trace. -/
theorem C4_witness :
    ∃ e, LLMService.generateCompletion sC4 (some "Z") = (Except.error e, []) ∧
      (e = JsError.noProviderConfigured ∨
        ∃ n2, e = JsError.providerNotFound n2) :=
  C4_configuration_error_no_calls sC4 (some "Z") (fun _ _ _ => rfl)

/-- C5.  The fallback loop walks the configured list in order: a candidate
equal to the primary's resolved name or not registered is skipped with no
adapter call and no error — the loop continues on the remaining list with
an unchanged trace — while a registered non-primary candidate is processed
next, its availability probe being the next event appended to the trace. -/
theorem C5_fallback_order_skip (s : ServiceState) (pn : String)
    (err : JsError) (fb : String) (rest : List String) (tr : List Event) :
    ((fb = pn ∨ mapGet s.providers fb = none) →
      LLMService.fallbackLoop s pn err (fb :: rest) tr =
        LLMService.fallbackLoop s pn err rest tr) ∧
    (fb ≠ pn → ∀ p, mapGet s.providers fb = some p →
      ∃ res tail, (LLMService.fallbackLoop s pn err (fb :: rest) tr).2 =
        tr ++ Event.probe p.name res :: tail) := by
  constructor
  · intro h
    rcases h with h | h
    · simp [LLMService.fallbackLoop, h]
    · by_cases hfb : fb = pn
      · simp [LLMService.fallbackLoop, hfb]
      · simp [LLMService.fallbackLoop, hfb, h]
  · intro hne p hp
    simp only [LLMService.fallbackLoop, if_neg hne, hp]
    rcases hav : p.isAvailable (probeCount p.name tr) with fe | b
    · obtain ⟨tail, ht⟩ := fallbackLoop_extends s pn err rest
        (tr ++ [Event.probe p.name (Except.error fe)])
      refine ⟨Except.error fe, tail, ?_⟩
      show (LLMService.fallbackLoop s pn err rest
        (tr ++ [Event.probe p.name (Except.error fe)])).2 = _
      rw [ht, List.append_assoc]
      rfl
    · cases b
      · obtain ⟨tail, ht⟩ := fallbackLoop_extends s pn err rest
          (tr ++ [Event.probe p.name (Except.ok false)])
        refine ⟨Except.ok false, tail, ?_⟩
        show (LLMService.fallbackLoop s pn err rest
          (tr ++ [Event.probe p.name (Except.ok false)])).2 = _
        rw [ht, List.append_assoc]
        rfl
      · obtain ⟨mid, hmid⟩ : ∃ mid,
            (LLMService.executeWithRetry s p
              (tr ++ [Event.probe p.name (Except.ok true)])).2 =
              (tr ++ [Event.probe p.name (Except.ok true)]) ++ mid := ⟨_, rfl⟩
        rcases hrun : LLMService.executeWithRetry s p
            (tr ++ [Event.probe p.name (Except.ok true)]) with ⟨res1, tr2⟩
        rw [hrun] at hmid
        have hmid2 : tr2 =
            tr ++ ([Event.probe p.name (Except.ok true)] ++ mid) := by
          rw [← List.append_assoc]
          exact hmid
        rcases res1 with e2 | r
        · obtain ⟨tail, ht⟩ := fallbackLoop_extends s pn err rest tr2
          have hfin : (LLMService.fallbackLoop s pn err rest tr2).2 =
              tr ++ Event.probe p.name (Except.ok true) :: (mid ++ tail) := by
            rw [ht, hmid2]
            simp
          exact ⟨Except.ok true, mid ++ tail, hfin⟩
        · exact ⟨Except.ok true, mid, hmid2⟩

/-- C5, witness: the unregistered fallback name `zz` is skipped without an
error and without any adapter call. -/
theorem C5_witness :
    LLMService.fallbackLoop sC5 "a" JsError.undef ["zz"] [] =
      LLMService.fallbackLoop sC5 "a" JsError.undef [] [] :=
  (C5_fallback_order_skip sC5 "a" JsError.undef "zz" [] []).1 (Or.inr rfl)

/-- C6, counterexample.  In registry `sC6` the first adapter's availability
probe throws: `checkProviderAvailability` rethrows that error and the
second registered adapter is never probed — a single adapter's probe
failure aborts the probes of the others, contradicting the claimed
isolation. -/
theorem C6_isolation_counterexample :
    (LLMService.checkProviderAvailability sC6).1 =
      Except.error (JsError.vendorError 7) ∧
    probeCount "o" (LLMService.checkProviderAvailability sC6).2 = 0 := by
  constructor <;> rfl

/-- C6, amended.  The availability query probes the registered adapters in
registration order and returns an entry for every registered name —
provided no probe throws (which holds for the repository's own adapters,
whose `isAvailable` implementations catch their transport errors and
return `false`).  A probe that does throw aborts the remaining probes and
propagates to the caller: isolation lives in the adapters, not in the
service loop. -/
theorem C6_amended_availability (s : ServiceState)
    (h : ∀ p, p ∈ s.providers → ∀ i, ∃ b, p.isAvailable i = Except.ok b) :
    ∃ m tr, LLMService.checkProviderAvailability s = (Except.ok m, tr) ∧
      ∀ p, p ∈ s.providers → (LLMService.recordGet m p.name).isSome := by
  obtain ⟨m, tr, heq, _, hall⟩ := availabilityLoop_ok s.providers [] [] h
  exact ⟨m, tr, heq, hall⟩

/-- C6, witness: with two adapters whose probes return (`true` and `false`
respectively), the availability query succeeds with an entry for each. -/
theorem C6_witness :
    ∃ m tr, LLMService.checkProviderAvailability sC6w = (Except.ok m, tr) ∧
      ∀ p, p ∈ sC6w.providers → (LLMService.recordGet m p.name).isSome := by
  apply C6_amended_availability
  intro p hp i
  have hp2 : p ∈ provListC6w := hp
  rcases List.mem_cons.mp hp2 with h1 | h1
  · subst h1
    exact ⟨true, rfl⟩
  · rcases List.mem_cons.mp h1 with h2 | h2
    · subst h2
      exact ⟨false, rfl⟩
    · simp at h2

/-- C7, counterexample.  The OpenAI adapter, on a successful vendor
response whose single choice carries a `null` message content (the vendor
returned no completion text), silently returns an empty-string completion
instead of failing — refuting the claim's "never silently substitutes an
empty string" clause.  The same `|| ''` / non-text-block defaulting exists
in the ollama and claude adapters. -/
theorem C7_empty_string_counterexample :
    OpenAIProvider.generateCompletion true (Except.ok openaiNullContent) =
      Except.ok { content := "", usage := none, provider := "openai" } := rfl

/-- C7, amended.  Every adapter fails with a descriptive error on a
non-success vendor response, network failure, or uninitialized client, and
every successful result is stamped with the adapter's own name; but when
the vendor reports success with missing/null text content (openai, ollama)
or a non-text first content block (claude), the adapter silently returns
`content = ""` rather than failing. -/
theorem C7_amended_adapter_error_behaviour :
    (∀ e, OpenAIProvider.generateCompletion true (Except.error e) =
      Except.error e) ∧
    (∀ api, OpenAIProvider.generateCompletion false api =
      Except.error (JsError.clientNotInitialized "openai")) ∧
    (∀ e, ClaudeProvider.generateCompletion true (Except.error e) =
      Except.error e) ∧
    (∀ api, ClaudeProvider.generateCompletion false api =
      Except.error (JsError.clientNotInitialized "claude")) ∧
    (∀ e, OllamaProvider.generateCompletion (Except.error e) =
      Except.error e) ∧
    (∀ resp, resp.ok = false →
      OllamaProvider.generateCompletion (Except.ok resp) =
        Except.error (JsError.ollamaApiError resp.statusText)) ∧
    (∀ ci api r, OpenAIProvider.generateCompletion ci api = Except.ok r →
      r.provider = "openai") ∧
    (∀ ci api r, ClaudeProvider.generateCompletion ci api = Except.ok r →
      r.provider = "claude") ∧
    (∀ api r, OllamaProvider.generateCompletion api = Except.ok r →
      r.provider = "ollama") ∧
    (∀ comp ch m, comp.choices.head? = some ch → ch.message = some m →
      m.content = none →
      ∃ r, OpenAIProvider.generateCompletion true (Except.ok comp) =
        Except.ok r ∧ r.content = "") ∧
    (∀ comp, comp.content.head? = some ClaudeProvider.ContentBlock.other →
      ∃ r, ClaudeProvider.generateCompletion true (Except.ok comp) =
        Except.ok r ∧ r.content = "") ∧
    (∀ resp, resp.ok = true → resp.data.message = none →
      ∃ r, OllamaProvider.generateCompletion (Except.ok resp) =
        Except.ok r ∧ r.content = "") := by
  refine ⟨fun e => rfl, fun api => rfl, fun e => rfl, fun api => rfl,
    fun e => rfl, ?_, ?_, ?_, ?_, ?_, ?_, ?_⟩
  · intro resp hok
    simp only [OllamaProvider.generateCompletion, hok]
  · intro ci api r h
    cases ci
    · simp [OpenAIProvider.generateCompletion] at h
    · cases api with
      | error e => simp [OpenAIProvider.generateCompletion] at h
      | ok comp =>
        simp only [OpenAIProvider.generateCompletion] at h
        rcases hh : comp.choices.head? with _ | ch
        · rw [hh] at h
          simp at h
        · rw [hh] at h
          have h2 := Except.ok.inj h
          rw [← h2]
  · intro ci api r h
    cases ci
    · simp [ClaudeProvider.generateCompletion] at h
    · cases api with
      | error e => simp [ClaudeProvider.generateCompletion] at h
      | ok comp =>
        simp only [ClaudeProvider.generateCompletion] at h
        rcases hh : comp.content.head? with _ | block
        · rw [hh] at h
          simp at h
        · rw [hh] at h
          have h2 := Except.ok.inj h
          rw [← h2]
  · intro api r h
    cases api with
    | error e => simp [OllamaProvider.generateCompletion] at h
    | ok resp =>
      simp only [OllamaProvider.generateCompletion] at h
      rcases hok : resp.ok with _ | _
      · rw [hok] at h
        simp at h
      · rw [hok] at h
        have h2 := Except.ok.inj h
        rw [← h2]
  · intro comp ch m hh hm hc
    rcases hres : OpenAIProvider.generateCompletion true (Except.ok comp)
      with e | r
    · simp only [OpenAIProvider.generateCompletion, hh] at hres
      exact absurd hres (by simp)
    · refine ⟨r, rfl, ?_⟩
      simp only [OpenAIProvider.generateCompletion, hh] at hres
      have h2 := Except.ok.inj hres
      rw [← h2]
      simp [hm, hc]
  · intro comp hh
    rcases hres : ClaudeProvider.generateCompletion true (Except.ok comp)
      with e | r
    · simp only [ClaudeProvider.generateCompletion, hh] at hres
      exact absurd hres (by simp)
    · refine ⟨r, rfl, ?_⟩
      simp only [ClaudeProvider.generateCompletion, hh] at hres
      have h2 := Except.ok.inj hres
      rw [← h2]
  · intro resp hok hm
    rcases hres : OllamaProvider.generateCompletion (Except.ok resp)
      with e | r
    · simp only [OllamaProvider.generateCompletion, hok] at hres
      exact absurd hres (by simp)
    · refine ⟨r, rfl, ?_⟩
      simp only [OllamaProvider.generateCompletion, hok] at hres
      have h2 := Except.ok.inj hres
      rw [← h2]
      simp [hm]

/-- C7, witness: an Ollama HTTP 503 produces the descriptive vendor
error. -/
theorem C7_witness :
    OllamaProvider.generateCompletion (Except.ok ollamaFailResp) =
      Except.error (JsError.ollamaApiError "Service Unavailable") :=
  C7_amended_adapter_error_behaviour.2.2.2.2.2.1 ollamaFailResp rfl

/-- C8.  Registry semantics of `registerProvider` /
`getAvailableProviders`: registering under an existing name replaces that
entry without error and the subsequent lookup of the name returns the new
adapter (last registration wins); registering the same adapter twice
equals registering it once; and the listed names are exactly the
registered names in registration order — re-registration keeps the name's
original position, a fresh name is appended at the end. -/
theorem C8_registry_semantics (s : ServiceState) (p : LLMProvider) :
    mapGet (LLMService.registerProvider s p).providers p.name = some p ∧
    LLMService.registerProvider (LLMService.registerProvider s p) p =
      LLMService.registerProvider s p ∧
    (p.name ∈ LLMService.getAvailableProviders s →
      LLMService.getAvailableProviders (LLMService.registerProvider s p) =
        LLMService.getAvailableProviders s) ∧
    (p.name ∉ LLMService.getAvailableProviders s →
      LLMService.getAvailableProviders (LLMService.registerProvider s p) =
        LLMService.getAvailableProviders s ++ [p.name]) := by
  refine ⟨mapGet_mapSet_self s.providers p, ?_,
    fun h => mapSet_names_mem s.providers p h,
    fun h => mapSet_names_not_mem s.providers p h⟩
  unfold LLMService.registerProvider
  rw [mapSet_idem]

/-- C8, witness: registering the fresh adapter `w` into `sC8` appends its
name after the existing `v`. -/
theorem C8_witness :
    LLMService.getAvailableProviders (LLMService.registerProvider sC8 pC8) =
      LLMService.getAvailableProviders sC8 ++ ["w"] :=
  (C8_registry_semantics sC8 pC8).2.2.2 (by decide)

/-- C9.  `configure` is a field-wise merge: it never touches the provider
registry, and each of `defaultProvider`, `fallbackProviders`,
`retryAttempts` and `retryDelay` keeps its previous value whenever the
corresponding option field is `undefined`. -/
theorem C9_configure_fieldwise_merge (s : ServiceState)
    (o : LLMServiceOptions) :
    (LLMService.configure s o).providers = s.providers ∧
    (o.defaultProvider = none →
      (LLMService.configure s o).defaultProvider = s.defaultProvider) ∧
    (o.fallbackProviders = none →
      (LLMService.configure s o).fallbackProviders = s.fallbackProviders) ∧
    (o.retryAttempts = none →
      (LLMService.configure s o).retryAttempts = s.retryAttempts) ∧
    (o.retryDelay = none →
      (LLMService.configure s o).retryDelay = s.retryDelay) := by
  refine ⟨rfl, ?_, ?_, ?_, ?_⟩
  · intro h
    simp [LLMService.configure, h, truthyOptStr]
  · intro h
    simp [LLMService.configure, h]
  · intro h
    simp [LLMService.configure, h]
  · intro h
    simp [LLMService.configure, h]

/-- C9, witness: configuring only `retryAttempts` leaves the default
provider (and registry) of `sC9` unchanged. -/
theorem C9_witness :
    (LLMService.configure sC9 { retryAttempts := some 5 }).defaultProvider =
      sC9.defaultProvider ∧
    (LLMService.configure sC9 { retryAttempts := some 5 }).providers =
      sC9.providers :=
  ⟨(C9_configure_fieldwise_merge sC9 { retryAttempts := some 5 }).2.1 rfl,
    (C9_configure_fieldwise_merge sC9 { retryAttempts := some 5 }).1⟩

/-- C10.  The `retryAttempts ≥ 1` precondition is unenforced: with
`retryAttempts = 0` the retry loop makes zero adapter calls (no probe, no
completion call — the trace is returned unchanged) and throws the
`undefined` initial value of `lastError`, which the completion call
surfaces whenever the primary resolves, since no fallback candidate can
succeed under a zero retry budget either.  With `retryAttempts ≥ 1` the
thrown value is always the failure of an actual final attempt, witnessed
by the last trace event. -/
theorem C10_retryAttempts_zero_unenforced (s : ServiceState) :
    (s.retryAttempts = 0 → ∀ (p : LLMProvider) (tr : List Event),
      LLMService.executeWithRetry s p tr = (Except.error JsError.undef, tr)) ∧
    (s.retryAttempts = 0 → ∀ (opt : Option String) (n : String)
      (p : LLMProvider),
      LLMService.resolvePrimary s opt = Except.ok (n, p) →
      (LLMService.generateCompletion s opt).1 = Except.error JsError.undef) ∧
    (1 ≤ s.retryAttempts → ∀ (p : LLMProvider) (tr : List Event) (e : JsError)
      (tr2 : List Event),
      LLMService.executeWithRetry s p tr = (Except.error e, tr2) →
      ∃ pre,
        (tr2 = tr ++ (pre ++ [Event.probe p.name (Except.ok false)]) ∧
          e = JsError.providerNotAvailable p.name) ∨
        tr2 = tr ++ (pre ++ [Event.probe p.name (Except.error e)]) ∨
        tr2 = tr ++ (pre ++ [Event.gen p.name (Except.error e)])) := by
  refine ⟨fun h0 p tr => executeWithRetry_retryZero s p tr h0, ?_, ?_⟩
  · intro h0 opt n p hres
    rw [generateCompletion_resolved s opt n p hres,
      executeWithRetry_retryZero s p [] h0]
    exact fallbackLoop_retryZero s n JsError.undef h0 s.fallbackProviders []
  · intro h1 p tr e tr2 heq
    have hsplit : (retryLoop s.retryAttempts s.retryDelay p s.retryAttempts 1
        JsError.undef (probeCount p.name tr) (genCount p.name tr)).1 =
        Except.error e ∧
        tr ++ (retryLoop s.retryAttempts s.retryDelay p s.retryAttempts 1
          JsError.undef (probeCount p.name tr) (genCount p.name tr)).2 =
          tr2 := by
      constructor
      · exact congrArg Prod.fst heq
      · exact congrArg Prod.snd heq
    obtain ⟨hfst, hsnd⟩ := hsplit
    have hx : retryLoop s.retryAttempts s.retryDelay p s.retryAttempts 1
        JsError.undef (probeCount p.name tr) (genCount p.name tr) =
        (Except.error e,
          (retryLoop s.retryAttempts s.retryDelay p s.retryAttempts 1
            JsError.undef (probeCount p.name tr) (genCount p.name tr)).2) := by
      rw [← hfst]
    obtain ⟨pre, hpre⟩ := retryLoop_error_last s.retryAttempts s.retryDelay p
      s.retryAttempts 1 JsError.undef (probeCount p.name tr)
      (genCount p.name tr) e _ (by omega) h1 hx
    refine ⟨pre, ?_⟩
    rcases hpre with ⟨hl, he⟩ | hl | hl
    · exact Or.inl ⟨by rw [← hsnd, hl], he⟩
    · exact Or.inr (Or.inl (by rw [← hsnd, hl]))
    · exact Or.inr (Or.inr (by rw [← hsnd, hl]))

/-- C10, witness: with `retryAttempts = 0`, the dispatch against registered
primary `a` makes no adapter call and surfaces `undefined`. -/
theorem C10_witness :
    LLMService.executeWithRetry sC10 pC1a [] =
      (Except.error JsError.undef, []) ∧
    (LLMService.generateCompletion sC10 none).1 =
      Except.error JsError.undef :=
  ⟨(C10_retryAttempts_zero_unenforced sC10).1 rfl pC1a [],
    (C10_retryAttempts_zero_unenforced sC10).2.1 rfl none "a" pC1a rfl⟩
